import Mathlib

/-!
Verification of the Takeda Sapio LIMS webhook repository.

This file shallowly embeds the pure computational cores of the repository's
webhook handlers and proves the stated properties about them:

* `sapio/webhook/hplc/empower_parser.py` — row grouping, the least-squares
  slope/intercept computation (`scipy.stats.linregress`) and the reference
  standard concentration table.
* `sapio/webhook/grabber/grabber.py` — tab naming and entry dependency
  relinking of the protocol grabber.
* `sapio/webhook/elisa/elisa_data_parsing.py` — per-sample averages and
  inter-dilution CV.
* `sapio/webhook/elisa/softmax.py` and `sapio/webhook/elisa/elisa_blocks.py`
  — plate well-position generation and the plate block parser.
* `sapio/webhook/hplc/sample_dilution.py` — the five dilution branches.
* `sapio/webhook/label_printing/base_label.py` — label definition lookup.

Python numeric values are modelled as `ℚ` (or `ℝ` where a square root is
taken); nullable field values are `Option`; code that can raise returns
`Option`/`Except` or threads an explicit error component.
-/

namespace Sapio

/-! ## Basic Python-modelling helpers -/

/-- Whether the first character list starts the second one. -/
def charsStartWith : List Char → List Char → Bool
  | [], _ => true
  | _ :: _, [] => false
  | a :: as, b :: bs => a = b && charsStartWith as bs

/-- Whether the first character list occurs contiguously inside the second. -/
def charsOccurIn (needle hay : List Char) : Bool :=
  match hay with
  | [] => needle.isEmpty
  | _ :: t => charsStartWith needle hay || charsOccurIn needle t

/-- Models the Python substring test `needle in hay`. -/
def strContains (hay needle : String) : Bool :=
  charsOccurIn needle.toList hay.toList

/-- Models `str.removesuffix(suffix)`: drops `suf` from the end of `s` when `s`
ends with `suf`, otherwise returns `s` unchanged. -/
def pyRemoveSuffix (s suf : String) : String :=
  if charsStartWith suf.toList.reverse s.toList.reverse then
    String.mk (s.toList.take (s.toList.length - suf.toList.length))
  else s

/-- Numeric value of a list of decimal digit characters (most significant first). -/
def digitsToNat (cs : List Char) : Nat :=
  cs.foldl (fun acc c => acc * 10 + (c.toNat - 48)) 0

/-- Leading and trailing whitespace removal on a character list (the
whitespace stripping Python `float` applies to its argument). -/
def charsTrim (cs : List Char) : List Char :=
  ((cs.dropWhile Char.isWhitespace).reverse.dropWhile Char.isWhitespace).reverse

/-- Models Python `float(s)` on plain decimal literals: optional surrounding
whitespace, optional sign, then `digits`, `digits.digits`, `digits.` or
`.digits`.  Exponent, `inf` and `nan` literals are not modelled; on any other
input the Python call raises `ValueError`, modelled as `none`. -/
def pyFloat (s : String) : Option ℚ :=
  let cs := charsTrim s.toList
  let (sign, body) : ℚ × List Char :=
    match cs with
    | '-' :: rest => (-1, rest)
    | '+' :: rest => (1, rest)
    | rest => (1, rest)
  match body.splitOn '.' with
  | [intPart] =>
    if intPart ≠ [] ∧ intPart.all Char.isDigit then
      some (sign * (digitsToNat intPart : ℚ))
    else none
  | [intPart, fracPart] =>
    if (intPart ≠ [] ∨ fracPart ≠ []) ∧ intPart.all Char.isDigit ∧ fracPart.all Char.isDigit then
      some (sign * ((digitsToNat intPart : ℚ) + (digitsToNat fracPart : ℚ) / (10 : ℚ) ^ fracPart.length))
    else none
  | _ => none

/-- Models Python dict assignment `d[k] = v` on an association list (overwrite
the existing binding for `k`, otherwise append the new binding). -/
def dictSet {κ α : Type} [DecidableEq κ] (d : List (κ × α)) (k : κ) (v : α) : List (κ × α) :=
  if d.any (fun p => p.1 = k) then
    d.map (fun p => if p.1 = k then (k, v) else p)
  else d ++ [(k, v)]

/-- Models Python `d.get(k)` on an association list. -/
def dictGet {κ α : Type} [DecidableEq κ] (d : List (κ × α)) (k : κ) : Option α :=
  (d.find? (fun p => p.1 = k)).map (·.2)

/-- Models Python `k in d` on an association list. -/
def dictHasKey {κ α : Type} [DecidableEq κ] (d : List (κ × α)) (k : κ) : Bool :=
  d.any (fun p => p.1 = k)

theorem dictGet_dictSet {κ α : Type} [DecidableEq κ] (d : List (κ × α)) (k : κ) (v : α) :
    dictGet (dictSet d k v) k = some v := by
  unfold dictGet dictSet
  split
  · rename_i h
    induction d with
    | nil => simp at h
    | cons p t ih =>
      by_cases hp : p.1 = k
      · simp [List.find?, hp]
      · simp only [List.map_cons, if_neg hp]
        have h' : t.any (fun p => p.1 = k) = true := by
          simp only [List.any_cons] at h
          rcases Bool.or_eq_true_iff.mp h with h1 | h2
          · exact absurd (by simpa using h1) hp
          · exact h2
        simpa [List.find?, hp] using ih h'
  · induction d with
    | nil => simp [List.find?]
    | cons p t ih =>
      rename_i h
      simp only [List.any_cons, Bool.or_eq_true_iff, not_or] at h
      have hp : ¬ (p.1 = k) := by simpa using h.1
      simp only [List.cons_append, List.find?]
      rw [show (decide (p.1 = k)) = false by simpa using hp]
      exact ih (by simpa using h.2)

/-! ## `EmpowerParser.parse` — row grouping (C3)

From `sapio/webhook/hplc/empower_parser.py`, lines 112–126.  Each tokenized
file row carries at least its `SampleName` value; the remaining columns are
kept abstractly as the row's raw cell map. -/

/-- A tokenized row of the Empower raw data file.  `sampleName` is the value of
the required `SampleName` column; `cells` carries the other columns. -/
structure EmpowerRow where
  sampleName : String
  cells : List (String × String)
deriving DecidableEq, Repr

/-- The four groups that `EmpowerParser.parse` sorts file rows into. -/
structure EmpowerGroups where
  assayControlData : List EmpowerRow
  referenceStandardsData : List EmpowerRow
  rawStandardCurveData : List EmpowerRow
  rawSampleData : List EmpowerRow
deriving DecidableEq, Repr

/-- The grouping loop of `EmpowerParser.parse` (empower_parser.py 117–126):
each row is appended to the first group whose marker substring occurs in its
sample name, in the order assay control, reference standards, standard curve,
and otherwise raw sample data. -/
def parseGroupRows : List EmpowerRow → EmpowerGroups
  | [] => ⟨[], [], [], []⟩
  | row :: rest =>
    let g := parseGroupRows rest
    if strContains row.sampleName "Assay Control" then
      { g with assayControlData := row :: g.assayControlData }
    else if strContains row.sampleName "mg/mL RS" then
      { g with referenceStandardsData := row :: g.referenceStandardsData }
    else if strContains row.sampleName "ug RS" then
      { g with rawStandardCurveData := row :: g.rawStandardCurveData }
    else
      { g with rawSampleData := row :: g.rawSampleData }

/-- C3.  `EmpowerParser.parse` partitions the file rows into four groups by
substring tests on `SampleName` applied in priority order, keeping the original
file order in each group and covering every row exactly once. -/
theorem empower_parse_partition (rows : List EmpowerRow) :
    (parseGroupRows rows).assayControlData
      = rows.filter (fun r => strContains r.sampleName "Assay Control") ∧
    (parseGroupRows rows).referenceStandardsData
      = rows.filter (fun r => ¬ strContains r.sampleName "Assay Control"
          ∧ strContains r.sampleName "mg/mL RS") ∧
    (parseGroupRows rows).rawStandardCurveData
      = rows.filter (fun r => ¬ strContains r.sampleName "Assay Control"
          ∧ ¬ strContains r.sampleName "mg/mL RS"
          ∧ strContains r.sampleName "ug RS") ∧
    (parseGroupRows rows).rawSampleData
      = rows.filter (fun r => ¬ strContains r.sampleName "Assay Control"
          ∧ ¬ strContains r.sampleName "mg/mL RS"
          ∧ ¬ strContains r.sampleName "ug RS") ∧
    (parseGroupRows rows).assayControlData.length
      + (parseGroupRows rows).referenceStandardsData.length
      + (parseGroupRows rows).rawStandardCurveData.length
      + (parseGroupRows rows).rawSampleData.length = rows.length := by
  induction rows with
  | nil => simp [parseGroupRows]
  | cons row rest ih =>
    obtain ⟨h1, h2, h3, h4, h5⟩ := ih
    by_cases hAC : strContains row.sampleName "Assay Control"
    · refine ⟨?_, ?_, ?_, ?_, ?_⟩
      · simp [parseGroupRows, hAC, h1, List.filter_cons]
      · simp [parseGroupRows, hAC, h2, List.filter_cons]
      · simp [parseGroupRows, hAC, h3, List.filter_cons]
      · simp [parseGroupRows, hAC, h4, List.filter_cons]
      · simp only [parseGroupRows, hAC, if_true, List.length_cons]
        omega
    · by_cases hRS : strContains row.sampleName "mg/mL RS"
      · refine ⟨?_, ?_, ?_, ?_, ?_⟩
        · simp [parseGroupRows, hAC, hRS, h1, List.filter_cons]
        · simp [parseGroupRows, hAC, hRS, h2, List.filter_cons]
        · simp [parseGroupRows, hAC, hRS, h3, List.filter_cons]
        · simp [parseGroupRows, hAC, hRS, h4, List.filter_cons]
        · simp only [parseGroupRows, hAC, hRS, if_true, if_false, Bool.false_eq_true,
            List.length_cons]
          omega
      · by_cases hUG : strContains row.sampleName "ug RS"
        · refine ⟨?_, ?_, ?_, ?_, ?_⟩
          · simp [parseGroupRows, hAC, hRS, hUG, h1, List.filter_cons]
          · simp [parseGroupRows, hAC, hRS, hUG, h2, List.filter_cons]
          · simp [parseGroupRows, hAC, hRS, hUG, h3, List.filter_cons]
          · simp [parseGroupRows, hAC, hRS, hUG, h4, List.filter_cons]
          · simp only [parseGroupRows, hAC, hRS, hUG, if_true, if_false, Bool.false_eq_true,
              List.length_cons]
            omega
        · refine ⟨?_, ?_, ?_, ?_, ?_⟩
          · simp [parseGroupRows, hAC, hRS, hUG, h1, List.filter_cons]
          · simp [parseGroupRows, hAC, hRS, hUG, h2, List.filter_cons]
          · simp [parseGroupRows, hAC, hRS, hUG, h3, List.filter_cons]
          · simp [parseGroupRows, hAC, hRS, hUG, h4, List.filter_cons]
          · simp only [parseGroupRows, hAC, hRS, hUG, if_true, if_false, Bool.false_eq_true,
              List.length_cons]
            omega

/-! ## `EmpowerParser` — slope/intercept and reference standard data (C1, C9)

From `sapio/webhook/hplc/empower_parser.py`, lines 296–383, together with
`scipy.stats.linregress` and the `LinRegressData` wrapper of
`sapio/webhook/hplc/stats.py`. -/

/-- A raw data experiment detail created by `populate_eln_raw_data_entry` for
a standard curve row.  Fields that the file may leave blank are `Option`
(an unset record field reads back as `None`). -/
structure RawDataModel where
  sampleName : String
  name : Option String := none
  area : Option ℚ := none
  uspPlateCount : Option ℚ := none
  uspTailing : Option ℚ := none
  retentionTime : Option ℚ := none
deriving DecidableEq, Repr

/-- The slope and intercept of `scipy.stats.linregress`, as wrapped by
`LinRegressData` (stats.py). -/
structure LinRegressData where
  slope : ℚ
  intercept : ℚ
deriving DecidableEq, Repr

/-- Least-squares linear regression, as computed by `scipy.stats.linregress`:
`slope = Σ (x-x̄)(y-ȳ) / Σ (x-x̄)²` and `intercept = ȳ - slope·x̄`.
`scipy` raises (modelled `none`) on empty input, on inputs of different
lengths, and when all x values are identical (zero x variance). -/
def linregress (xs ys : List ℚ) : Option LinRegressData :=
  if xs.length = ys.length ∧ xs.length ≠ 0 then
    let n : ℚ := xs.length
    let xmean := xs.sum / n
    let ymean := ys.sum / n
    let ssxm := ((xs.map (fun x => (x - xmean) ^ 2)).sum)
    let ssxym := (((xs.zip ys).map (fun p => (p.1 - xmean) * (p.2 - ymean))).sum)
    if ssxm = 0 then none
    else
      let slope := ssxym / ssxm
      some { slope := slope, intercept := ymean - slope * xmean }
  else none

/-- Embeds `EmpowerParser.populate_slope_intercept_entry` (empower_parser.py 296–331):
collects the `Area` values as y and, as x, the concentration parsed with
`float` from each sample name after stripping the suffix `"ug RS"`, then runs
`linregress`.  A missing `Area` value poisons the numeric computation inside
`linregress` (a `None` in the y array raises), and an unparsable sample name
raises in `float`; both are modelled as `none`. -/
def populate_slope_intercept_entry (data : List RawDataModel) : Option LinRegressData := do
  let areas ← data.mapM (fun r => r.area)
  let concentrations ← data.mapM (fun r => pyFloat (pyRemoveSuffix r.sampleName "ug RS"))
  linregress concentrations areas

/-- One row of the Reference Standard Data entry.  All fields of a freshly
created record read back as `None` until set. -/
structure RefStdRow where
  sampleName : Option String := none
  mainPeakRetentionTime : Option ℚ := none
  mainPeakArea : Option ℚ := none
  yMinusB : Option ℚ := none
  m : Option ℚ := none
  concentration : Option ℚ := none
  percentRecovery : Option ℚ := none
deriving DecidableEq, Repr

/-- The loop body of `EmpowerParser.populate_reference_standard_data_entry`
(empower_parser.py 346–383) for one raw data record.  Returns the row state
together with `some` error message when the Python code would raise before
finishing the row: `float` fails on the stripped sample name, or the
`% Recovery` expression divides a `None` concentration by a nonzero original
concentration.  Field writes made before the raise are kept in the returned
row state.  The regression intercept and slope are plain numbers here, so the
`is not None` guards on them in the source are always satisfied.

`refStdRecoveryStep` is the `% Recovery` tail of the loop body
(empower_parser.py 378–383): `original_conc = float(...removesuffix("ug RS"))`
computed unconditionally, then `(concentration / original_conc) * 100` guarded
only by `original_conc != 0`. -/
def refStdRecoveryStep (row : RefStdRow) (sampleName : String) : RefStdRow × Option String :=
  match pyFloat (pyRemoveSuffix sampleName "ug RS") with
  | none => (row, some "ValueError: could not convert string to float")
  | some originalConc =>
    if originalConc ≠ 0 then
      match row.concentration with
      | some c => ({ row with percentRecovery := some (c / originalConc * 100) }, none)
      | none => (row, some "TypeError: unsupported operand type for /: NoneType and float")
    else (row, none)

def populateRefStdRow (record : RawDataModel) (regression : LinRegressData) :
    RefStdRow × Option String :=
  let row0 : RefStdRow :=
    { sampleName := some record.sampleName
      mainPeakRetentionTime := record.retentionTime
      mainPeakArea := record.area }
  let yMinusB : Option ℚ :=
    match record.area with
    | some a => some (a - regression.intercept)
    | none => none
  let row1 := { row0 with yMinusB := yMinusB, m := some regression.slope }
  let concentration : Option ℚ :=
    match yMinusB with
    | some yb => if regression.slope ≠ 0 then some (yb / regression.slope) else none
    | none => none
  let row2 := { row1 with concentration := concentration }
  refStdRecoveryStep row2 record.sampleName

theorem refStdRecoveryStep_preserves (row : RefStdRow) (s : String) :
    (refStdRecoveryStep row s).1.yMinusB = row.yMinusB ∧
    (refStdRecoveryStep row s).1.concentration = row.concentration := by
  unfold refStdRecoveryStep
  split
  · exact ⟨rfl, rfl⟩
  · split
    · split
      · exact ⟨rfl, rfl⟩
      · exact ⟨rfl, rfl⟩
    · exact ⟨rfl, rfl⟩

/-- C1.  With slope `m` and intercept `b` the least-squares regression of the
standard-curve areas against the concentrations stripped from the sample
names, every reference standard row gets `y - b = Area - b` whenever its
`Area` is present, `Concentration = (Area - b) / m` whenever additionally
`m ≠ 0`, and `Concentration` stays `None` when `Area` is missing or `m = 0`. -/
theorem reference_standard_concentration (data : List RawDataModel)
    (reg : LinRegressData) (hreg : populate_slope_intercept_entry data = some reg)
    (record : RawDataModel) (hrec : record ∈ data) :
    (∀ a : ℚ, record.area = some a →
      (populateRefStdRow record reg).1.yMinusB = some (a - reg.intercept) ∧
      (reg.slope ≠ 0 →
        (populateRefStdRow record reg).1.concentration
          = some ((a - reg.intercept) / reg.slope))) ∧
    ((record.area = none ∨ reg.slope = 0) →
      (populateRefStdRow record reg).1.concentration = none) := by
  have hy := (refStdRecoveryStep_preserves
    { sampleName := some record.sampleName
      mainPeakRetentionTime := record.retentionTime
      mainPeakArea := record.area
      yMinusB := match record.area with
        | some a => some (a - reg.intercept)
        | none => none
      m := some reg.slope
      concentration := match (match record.area with
          | some a => some (a - reg.intercept)
          | none => none : Option ℚ) with
        | some yb => if reg.slope ≠ 0 then some (yb / reg.slope) else none
        | none => none } record.sampleName)
  constructor
  · intro a ha
    constructor
    · show (refStdRecoveryStep _ _).1.yMinusB = _
      rw [hy.1]
      simp [ha]
    · intro hm
      show (refStdRecoveryStep _ _).1.concentration = _
      rw [hy.2]
      simp [ha, hm]
  · rintro (ha | hm)
    · show (refStdRecoveryStep _ _).1.concentration = _
      rw [hy.2]
      simp [ha]
    · show (refStdRecoveryStep _ _).1.concentration = _
      rw [hy.2]
      rcases harea : record.area with _ | a
      · simp
      · simp [hm]

/-- A two-point standard curve (1 µg and 2 µg) with distinct areas; its
regression has slope 20 and intercept -10. -/
def stdCurveData : List RawDataModel :=
  [{ sampleName := "1ug RS", area := some 10 },
   { sampleName := "2ug RS", area := some 30 }]

theorem stdCurve_regression :
    populate_slope_intercept_entry stdCurveData = some { slope := 20, intercept := -10 } := by
  have h1 : pyFloat (pyRemoveSuffix "1ug RS" "ug RS") = some 1 := by
    have : pyRemoveSuffix "1ug RS" "ug RS" = "1" := by
      simp +decide [pyRemoveSuffix, charsStartWith]
    rw [this]
    simp +decide [pyFloat, charsTrim, digitsToNat, List.splitOn, List.splitOnP, List.splitOnP.go,
      List.dropWhile_cons]
  have h2 : pyFloat (pyRemoveSuffix "2ug RS" "ug RS") = some 2 := by
    have : pyRemoveSuffix "2ug RS" "ug RS" = "2" := by
      simp +decide [pyRemoveSuffix, charsStartWith]
    rw [this]
    simp +decide [pyFloat, charsTrim, digitsToNat, List.splitOn, List.splitOnP, List.splitOnP.go,
      List.dropWhile_cons]
  have hlin : linregress [1, 2] [10, 30] = some { slope := 20, intercept := -10 } := by
    norm_num [linregress]
  simp [populate_slope_intercept_entry, stdCurveData, h1, h2, List.mapM_cons, List.mapM.loop, Option.bind, hlin]

theorem reference_standard_concentration_witness :
    (populateRefStdRow { sampleName := "2ug RS", area := some 30 }
        { slope := 20, intercept := -10 }).1.yMinusB = some 40 ∧
    (populateRefStdRow { sampleName := "2ug RS", area := some 30 }
        { slope := 20, intercept := -10 }).1.concentration = some 2 := by
  have h := reference_standard_concentration stdCurveData
    { slope := 20, intercept := -10 } stdCurve_regression
    { sampleName := "2ug RS", area := some 30 } (by simp [stdCurveData])
  have h30 := h.1 30 rfl
  refine ⟨?_, ?_⟩
  · rw [h30.1]
    norm_num
  · rw [h30.2 (by norm_num)]
    norm_num

/-- A flat two-point standard curve (equal areas); its regression has slope 0
and intercept 5, so every row's `Concentration` is `None` while the parsed
original concentration is nonzero. -/
def flatStdCurveData : List RawDataModel :=
  [{ sampleName := "1ug RS", area := some 5 },
   { sampleName := "2ug RS", area := some 5 }]

/-- C9.  On a flat standard curve the regression succeeds with slope 0, every
concentration stays `None`, and the `% Recovery` expression divides that
`None` by the nonzero original concentration: the loop body raises a
`TypeError` instead of the claimed safety.  The guard `original_conc != 0`
protects the divisor only; the dividend is unguarded, although the analogous
assay-control code (empower_parser.py 441) does check
`concentration is not None` first. -/
theorem reference_standard_recovery_crash :
    populate_slope_intercept_entry flatStdCurveData
      = some { slope := 0, intercept := 5 } ∧
    (populateRefStdRow { sampleName := "1ug RS", area := some 5 }
        { slope := 0, intercept := 5 }).1.concentration = none ∧
    (populateRefStdRow { sampleName := "1ug RS", area := some 5 }
        { slope := 0, intercept := 5 }).2
      = some "TypeError: unsupported operand type for /: NoneType and float" := by
  have h1 : pyFloat (pyRemoveSuffix "1ug RS" "ug RS") = some 1 := by
    have : pyRemoveSuffix "1ug RS" "ug RS" = "1" := by
      simp +decide [pyRemoveSuffix, charsStartWith]
    rw [this]
    simp +decide [pyFloat, charsTrim, digitsToNat, List.splitOn, List.splitOnP, List.splitOnP.go,
      List.dropWhile_cons]
  have h2 : pyFloat (pyRemoveSuffix "2ug RS" "ug RS") = some 2 := by
    have : pyRemoveSuffix "2ug RS" "ug RS" = "2" := by
      simp +decide [pyRemoveSuffix, charsStartWith]
    rw [this]
    simp +decide [pyFloat, charsTrim, digitsToNat, List.splitOn, List.splitOnP, List.splitOnP.go,
      List.dropWhile_cons]
  have hlin : linregress [1, 2] [5, 5] = some { slope := 0, intercept := 5 } := by
    norm_num [linregress]
  refine ⟨?_, ?_, ?_⟩
  · simp [populate_slope_intercept_entry, flatStdCurveData, h1, h2, List.mapM_cons, List.mapM.loop, Option.bind, hlin]
  · norm_num [populateRefStdRow, refStdRecoveryStep, h1]
  · norm_num [populateRefStdRow, refStdRecoveryStep, h1]

/-! ## `ProtocolGrabber.get_tab_name` (C5)

From `sapio/webhook/grabber/grabber.py`, lines 316–339.  The compiled pattern
`^escape(title)(?: \((\d+)\))?$` is embedded structurally: a tab name matches
iff it is the bare title (captured group absent) or the title followed by a
space and a parenthesised nonempty digit string (captured group present). -/

/-- The anchored regex `^escape(title)(?: \((\d+)\))?$` of `get_tab_name`:
`none` for no match, `some none` for a match with no number suffix, and
`some (some n)` for a match whose captured digits have value `n`
(`int(match.group(1))`). -/
def matchTabName (title name : String) : Option (Option Nat) :=
  if name = title then some none
  else
    let tcs := title.toList ++ [' ', '(']
    let ncs := name.toList
    if charsStartWith tcs ncs ∧ ncs.getLast? = some ')' then
      let mid := (ncs.drop tcs.length).dropLast
      if mid ≠ [] ∧ mid.all Char.isDigit then some (some (digitsToNat mid)) else none
    else none

/-- The scanning loop of `get_tab_name` (grabber.py 328–337): walk the given
tab names in order, skip names that fail the `new_tab_name in tab_name`
substring pre-check, and stop at the first name the pattern matches. -/
def scanTabs (title : String) (names : List String) : Option (Option Nat) :=
  names.findSome? (fun name =>
    if strContains name title then matchTabName title name else none)

/-- Embeds `ProtocolGrabber.get_tab_name` (grabber.py 316–339).  The tab list is
walked in reverse so the most recently added tab is examined first; with an
empty (falsy) title the chosen protocol's display name is returned. -/
def get_tab_name (protocolDisplayName title : String) (tabNames : List String) : String :=
  if title ≠ "" then
    match scanTabs title tabNames.reverse with
    | some (some n) => title ++ " (" ++ Nat.repr (n + 1) ++ ")"
    | some none => title ++ " (2)"
    | none => title
  else protocolDisplayName

theorem charsStartWith_append_self (a rest : List Char) :
    charsStartWith a (a ++ rest) = true := by
  induction a with
  | nil => rfl
  | cons c t ih => simp [charsStartWith, ih]

theorem charsStartWith_impl_occurIn (needle hay : List Char)
    (h : charsStartWith needle hay = true) : charsOccurIn needle hay = true := by
  cases hay with
  | nil =>
    cases needle with
    | nil => rfl
    | cons c t => simp [charsStartWith] at h
  | cons c t => simp [charsOccurIn, h]

theorem charsStartWith_append_left (a b ys : List Char)
    (h : charsStartWith (a ++ b) ys = true) : charsStartWith a ys = true := by
  induction a generalizing ys with
  | nil => rfl
  | cons c t ih =>
    cases ys with
    | nil => simp [charsStartWith] at h
    | cons c2 t2 =>
      simp only [List.cons_append, charsStartWith, Bool.and_eq_true] at h ⊢
      exact ⟨h.1, ih t2 h.2⟩

theorem matchTabName_contains (title name : String) (v : Option Nat)
    (h : matchTabName title name = some v) : strContains name title = true := by
  unfold matchTabName at h
  split at h
  · rename_i heq
    subst heq
    unfold strContains
    exact charsStartWith_impl_occurIn _ _ (by
      have := charsStartWith_append_self name.toList []
      simpa using this)
  · simp only at h
    split at h
    · rename_i hpre
      unfold strContains
      exact charsStartWith_impl_occurIn _ _
        (charsStartWith_append_left _ [' ', '('] _ hpre.1)
    · exact absurd h (by simp)

theorem strToList_append (a b : String) : (a ++ b).toList = a.toList ++ b.toList :=
  String.data_append a b

theorem scanTabs_of_find (title : String) (l : List String) (nm : String)
    (hfind : l.find? (fun s => (matchTabName title s).isSome) = some nm) :
    scanTabs title l = matchTabName title nm := by
  induction l with
  | nil => simp at hfind
  | cons x t ih =>
    by_cases hx : (matchTabName title x).isSome
    · rw [List.find?_cons_of_pos _ (by simpa using hx)] at hfind
      have hxeq : x = nm := by simpa using hfind
      obtain ⟨v, hv⟩ := Option.isSome_iff_exists.mp hx
      rw [← hxeq]
      unfold scanTabs
      rw [List.findSome?_cons]
      rw [if_pos (matchTabName_contains title x v hv), hv]
    · rw [List.find?_cons_of_neg _ (by simpa using hx)] at hfind
      have hnone : matchTabName title x = none := Option.not_isSome_iff_eq_none.mp hx
      unfold scanTabs at ih ⊢
      rw [List.findSome?_cons]
      have hcase : (if strContains x title = true then matchTabName title x else none) = none := by
        split
        · exact hnone
        · rfl
      rw [hcase]
      exact ih hfind

theorem scanTabs_of_no_match (title : String) (l : List String)
    (h : ∀ nm ∈ l, matchTabName title nm = none) :
    scanTabs title l = none := by
  induction l with
  | nil => rfl
  | cons x t ih =>
    unfold scanTabs at ih ⊢
    rw [List.findSome?_cons]
    have hcase : (if strContains x title = true then matchTabName title x else none) = none := by
      split
      · exact h x (by simp)
      · rfl
    rw [hcase]
    exact ih (fun nm hnm => h nm (by simp [hnm]))

theorem matchTabName_self (title : String) : matchTabName title title = some none := by
  unfold matchTabName
  rw [if_pos rfl]

theorem matchTabName_number (title : String) (ds : List Char) (hne : ds ≠ [])
    (hd : ds.all Char.isDigit = true) :
    matchTabName title (title ++ " (" ++ String.mk ds ++ ")")
      = some (some (digitsToNat ds)) := by
  have hlist : (title ++ " (" ++ String.mk ds ++ ")").toList
      = (title.toList ++ [' ', '(']) ++ (ds ++ [')']) := by
    rw [strToList_append, strToList_append, strToList_append]
    simp [String.toList]
  have hne2 : title ++ " (" ++ String.mk ds ++ ")" ≠ title := by
    intro heq
    have hlen := congrArg (fun s => s.toList.length) heq
    simp only [hlist, List.length_append] at hlen
    simp only [List.length_cons, List.length_nil] at hlen
    omega
  unfold matchTabName
  rw [if_neg hne2]
  simp only [hlist]
  have hpre : charsStartWith (title.toList ++ [' ', '('])
      ((title.toList ++ [' ', '(']) ++ (ds ++ [')'])) = true :=
    charsStartWith_append_self _ _
  have hlast : (((title.toList ++ [' ', '(']) ++ (ds ++ [')']))).getLast? = some ')' := by
    rw [show (title.toList ++ [' ', '(']) ++ (ds ++ [')'])
        = ((title.toList ++ [' ', '(']) ++ ds) ++ [')'] by simp]
    exact List.getLast?_concat _
  rw [if_pos ⟨hpre, hlast⟩]
  simp only [List.drop_left, List.dropLast_concat]
  rw [if_pos ⟨hne, hd⟩]

/-- C5.  For a nonempty title, `get_tab_name` scans the tab names from the
most recently added tab backwards for the first one matching
`^title(?: \((\d+)\))?$`: with no match it returns the title, with the bare
title as the first match it returns `title (2)`, and with `title (n)` as the
first match it returns `title (n+1)`.  For an empty title it returns the
chosen protocol's display name. -/
theorem grabber_tab_name (display title : String) (names : List String) :
    (title ≠ "" →
      ((∀ nm ∈ names, matchTabName title nm = none) →
        get_tab_name display title names = title) ∧
      (names.reverse.find? (fun s => (matchTabName title s).isSome) = some title →
        get_tab_name display title names = title ++ " (2)") ∧
      (∀ ds : List Char, ds ≠ [] → ds.all Char.isDigit = true →
        names.reverse.find? (fun s => (matchTabName title s).isSome)
            = some (title ++ " (" ++ String.mk ds ++ ")") →
        get_tab_name display title names
          = title ++ " (" ++ Nat.repr (digitsToNat ds + 1) ++ ")")) ∧
    get_tab_name display "" names = display := by
  constructor
  · intro htitle
    refine ⟨?_, ?_, ?_⟩
    · intro hnone
      have hscan : scanTabs title names.reverse = none :=
        scanTabs_of_no_match _ _ (fun nm hnm => hnone nm (List.mem_reverse.mp hnm))
      unfold get_tab_name
      rw [if_pos htitle, hscan]
    · intro hfind
      have hscan := scanTabs_of_find title names.reverse title hfind
      rw [matchTabName_self] at hscan
      unfold get_tab_name
      rw [if_pos htitle, hscan]
    · intro ds hne hd hfind
      have hscan := scanTabs_of_find title names.reverse _ hfind
      rw [matchTabName_number title ds hne hd] at hscan
      unfold get_tab_name
      rw [if_pos htitle, hscan]
  · unfold get_tab_name
    rw [if_neg (by simp)]

theorem grabber_tab_name_witness :
    get_tab_name "Cell Culture" "Foo" ["Foo", "Foo (2)"] = "Foo (3)" := by
  have h := (grabber_tab_name "Cell Culture" "Foo" ["Foo", "Foo (2)"]).1 (by decide)
  have h3 := h.2.2 ['2'] (by decide) (by decide) (by decide)
  simpa using h3

/-! ## `LabelUtil.get_takeda_label_definition` (C6)

From `sapio/webhook/label_printing/base_label.py`, lines 355–368.  The
`RecordHandler.query_models` call retrieves the label-definition records whose
name field takes one of the requested values; it is modelled as a filter over
the record store. -/

/-- A `C_TakedaLabelDefinition` record; only the name field and an identity
matter here. -/
structure LabelDefinition where
  recordId : Int
  name : String
deriving DecidableEq, Repr

/-- The `query_models(C_TakedaLabelDefinitionModel, C_NAME__FIELD_NAME, [label_name])`
call: all stored label definitions whose name is among the requested values. -/
def queryLabelDefinitions (store : List LabelDefinition) (values : List String) :
    List LabelDefinition :=
  store.filter (fun r => r.name ∈ values)

/-- Embeds `LabelUtil.get_takeda_label_definition` (base_label.py 355–368): error when
fewer than one or more than one configuration matches, otherwise `pop()` the
single match. -/
def get_takeda_label_definition (store : List LabelDefinition) (label_name : String) :
    Except String LabelDefinition :=
  let matched := queryLabelDefinitions store [label_name]
  if matched.length < 1 then
    .error "No Label Definition was found"
  else if matched.length > 1 then
    .error "Multiple Label Definitions were found"
  else
    match matched.getLast? with
    | some r => .ok r
    | none => .error "unreachable"

/-- C6.  `get_takeda_label_definition` raises exactly when the number of
matching records differs from one, and otherwise returns the unique record
matching the requested name. -/
theorem label_definition_lookup (store : List LabelDefinition) (label_name : String) :
    ((∃ e, get_takeda_label_definition store label_name = .error e) ↔
      (queryLabelDefinitions store [label_name]).length ≠ 1) ∧
    (∀ r, get_takeda_label_definition store label_name = .ok r →
      queryLabelDefinitions store [label_name] = [r] ∧ r.name = label_name) := by
  rcases hm : queryLabelDefinitions store [label_name] with _ | ⟨a, _ | ⟨b, t⟩⟩
  · have hget : get_takeda_label_definition store label_name
        = .error "No Label Definition was found" := by
      unfold get_takeda_label_definition
      rw [hm]
      rfl
    refine ⟨?_, ?_⟩
    · simp [hget]
    · intro r hr
      rw [hget] at hr
      exact absurd hr (by simp)
  · have hget : get_takeda_label_definition store label_name = .ok a := by
      unfold get_takeda_label_definition
      rw [hm]
      rfl
    have hname : a.name = label_name := by
      have ha : a ∈ queryLabelDefinitions store [label_name] := by rw [hm]; simp
      unfold queryLabelDefinitions at ha
      have := List.of_mem_filter ha
      simpa using this
    refine ⟨?_, ?_⟩
    · simp [hget]
    · intro r hr
      rw [hget] at hr
      have heq : a = r := by simpa using hr
      refine ⟨by rw [← heq], ?_⟩
      rw [← heq]
      exact hname
  · have hget : get_takeda_label_definition store label_name
        = .error "Multiple Label Definitions were found" := by
      unfold get_takeda_label_definition
      rw [hm]
      simp only [List.length_cons]
      rw [if_neg (by omega), if_pos (by omega)]
    refine ⟨?_, ?_⟩
    · constructor
      · intro _
        simp [hm]
      · intro _
        exact ⟨_, hget⟩
    · intro r hr
      rw [hget] at hr
      exact absurd hr (by simp)

theorem label_definition_lookup_witness :
    get_takeda_label_definition
      [{ recordId := 1, name := "Vial" }, { recordId := 2, name := "Plate" }] "Vial"
      = .ok { recordId := 1, name := "Vial" } ∧
    queryLabelDefinitions
      [{ recordId := 1, name := "Vial" }, { recordId := 2, name := "Plate" }] ["Vial"]
      = [{ recordId := 1, name := "Vial" }] := by
  have hq : queryLabelDefinitions
      [{ recordId := 1, name := "Vial" }, { recordId := 2, name := "Plate" }] ["Vial"]
      = [{ recordId := 1, name := "Vial" }] := by decide
  have hok : get_takeda_label_definition
      [{ recordId := 1, name := "Vial" }, { recordId := 2, name := "Plate" }] "Vial"
      = .ok { recordId := 1, name := "Vial" } := by
    unfold get_takeda_label_definition
    rw [hq]
    rfl
  have h2 := (label_definition_lookup
    [{ recordId := 1, name := "Vial" }, { recordId := 2, name := "Plate" }] "Vial").2
    { recordId := 1, name := "Vial" } hok
  exact ⟨hok, h2.1⟩

/-! ## `HPLCSampleDilution.execute` (C7)

From `sapio/webhook/hplc/sample_dilution.py`, lines 21–53.  A sample detail's
relevant field values; `none` models an unset field.  Python truthiness on a
number is `≠ 0`; dividing by `None` or by zero, or subtracting `None`, raises
— modelled by returning `none` for the whole detail. -/

/-- The dilution-related field values of one sample detail record. -/
structure DilutionDetail where
  estimatedConcentration : Option ℚ := none
  targetConcentration : Option ℚ := none
  totalVolume : Option ℚ := none
  sourceVolume : Option ℚ := none
  dilutionFactor : Option ℚ := none
  volumeOfMPA : Option ℚ := none
deriving DecidableEq, Repr

/-- Python truthiness of a possibly missing numeric field value. -/
def truthy (v : Option ℚ) : Bool :=
  match v with
  | none => false
  | some x => x ≠ 0

/-- Models `a / b` on field values: `TypeError` when either is `None`,
`ZeroDivisionError` when `b = 0`; both modelled as `none`. -/
def fieldDiv (a b : Option ℚ) : Option ℚ :=
  match a, b with
  | some x, some y => if y = 0 then none else some (x / y)
  | _, _ => none

/-- Models `a - b` on field values (`TypeError` when either is `None`). -/
def fieldSub (a b : Option ℚ) : Option ℚ :=
  match a, b with
  | some x, some y => some (x - y)
  | _, _ => none

/-- Models `a * b` on field values (`TypeError` when either is `None`). -/
def fieldMul (a b : Option ℚ) : Option ℚ :=
  match a, b with
  | some x, some y => some (x * y)
  | _, _ => none

/-- The loop body of `HPLCSampleDilution.execute` (sample_dilution.py 21–53)
for one sample detail.  Each branch re-reads the fields it just set, matching
the chained `detail.get_field_value` calls in the source; a raising arithmetic
operation aborts the processing of the detail (`none`). -/
def sampleDilutionStep (d : DilutionDetail) : Option DilutionDetail :=
  if truthy d.targetConcentration ∧ truthy d.totalVolume then do
    let df ← fieldDiv d.estimatedConcentration d.targetConcentration
    let d1 := { d with dilutionFactor := some df }
    let sv ← fieldDiv d1.totalVolume d1.dilutionFactor
    let d2 := { d1 with sourceVolume := some sv }
    let mpa ← fieldSub d2.totalVolume d2.sourceVolume
    some { d2 with volumeOfMPA := some mpa }
  else if truthy d.sourceVolume ∧ truthy d.totalVolume then do
    let mpa ← fieldSub d.totalVolume d.sourceVolume
    let d1 := { d with volumeOfMPA := some mpa }
    let df ← fieldDiv d1.totalVolume d1.sourceVolume
    let d2 := { d1 with dilutionFactor := some df }
    let tc ← fieldDiv d2.estimatedConcentration d2.dilutionFactor
    some { d2 with targetConcentration := some tc }
  else if truthy d.sourceVolume ∧ truthy d.targetConcentration then do
    let df ← fieldDiv d.estimatedConcentration d.targetConcentration
    let d1 := { d with dilutionFactor := some df }
    let tv ← fieldMul d1.sourceVolume d1.dilutionFactor
    let d2 := { d1 with totalVolume := some tv }
    let mpa ← fieldSub d2.totalVolume d2.sourceVolume
    some { d2 with volumeOfMPA := some mpa }
  else if truthy d.dilutionFactor ∧ truthy d.totalVolume then do
    let tc ← fieldDiv d.estimatedConcentration d.dilutionFactor
    let d1 := { d with targetConcentration := some tc }
    let sv ← fieldDiv d1.totalVolume d1.dilutionFactor
    let d2 := { d1 with sourceVolume := some sv }
    let mpa ← fieldSub d2.totalVolume d2.sourceVolume
    some { d2 with volumeOfMPA := some mpa }
  else if truthy d.dilutionFactor ∧ truthy d.sourceVolume then do
    let tv ← fieldMul d.sourceVolume d.dilutionFactor
    let d1 := { d with totalVolume := some tv }
    let mpa ← fieldSub d1.totalVolume d1.sourceVolume
    let d2 := { d1 with volumeOfMPA := some mpa }
    let tc ← fieldDiv d2.estimatedConcentration d2.dilutionFactor
    some { d2 with targetConcentration := some tc }
  else
    some d

/-- Whether the detail enters one of the five computation branches. -/
def entersDilutionBranch (d : DilutionDetail) : Bool :=
  (truthy d.targetConcentration && truthy d.totalVolume) ||
  (truthy d.sourceVolume && truthy d.totalVolume) ||
  (truthy d.sourceVolume && truthy d.targetConcentration) ||
  (truthy d.dilutionFactor && truthy d.totalVolume) ||
  (truthy d.dilutionFactor && truthy d.sourceVolume)

/-- C7.  Whenever a sample detail enters one of the five dilution branches and
the branch completes, its final field values satisfy
Volume of MPA = Total Volume - Source Volume. -/
theorem dilution_mpa_invariant (d d2 : DilutionDetail)
    (henter : entersDilutionBranch d = true)
    (hrun : sampleDilutionStep d = some d2) :
    ∃ tv sv, d2.totalVolume = some tv ∧ d2.sourceVolume = some sv ∧
      d2.volumeOfMPA = some (tv - sv) := by
  unfold sampleDilutionStep at hrun
  by_cases h1 : truthy d.targetConcentration ∧ truthy d.totalVolume
  · rw [if_pos h1] at hrun
    dsimp only [Option.bind_eq_bind] at hrun
    rcases hdf : fieldDiv d.estimatedConcentration d.targetConcentration with _ | df <;>
      rw [hdf] at hrun
    · exact absurd hrun (by simp)
    · simp only [Option.some_bind] at hrun
      rcases hsv : fieldDiv d.totalVolume (some df) with _ | sv <;> rw [hsv] at hrun
      · exact absurd hrun (by simp)
      · simp only [Option.some_bind] at hrun
        rcases htv : d.totalVolume with _ | tv
        · rw [htv] at hsv
          exact absurd hsv (by simp [fieldDiv])
        · rw [htv] at hrun
          simp only [fieldSub, Option.some_bind] at hrun
          obtain rfl : _ = d2 := Option.some.inj hrun
          exact ⟨tv, sv, rfl, rfl, rfl⟩
  · rw [if_neg h1] at hrun
    by_cases h2 : truthy d.sourceVolume ∧ truthy d.totalVolume
    · rw [if_pos h2] at hrun
      dsimp only [Option.bind_eq_bind] at hrun
      rcases htv : d.totalVolume with _ | tv <;> rw [htv] at hrun
      · exact absurd hrun (by simp [fieldSub])
      · rcases hsv : d.sourceVolume with _ | sv <;> rw [hsv] at hrun
        · exact absurd hrun (by simp [fieldSub])
        · simp only [fieldSub, Option.some_bind] at hrun
          rcases hdf : fieldDiv (some tv) (some sv) with _ | df <;> rw [hdf] at hrun
          · exact absurd hrun (by simp)
          · simp only [Option.some_bind] at hrun
            rcases htc : fieldDiv d.estimatedConcentration (some df) with _ | tc <;>
              rw [htc] at hrun
            · exact absurd hrun (by simp)
            · simp only [Option.some_bind] at hrun
              obtain rfl : _ = d2 := Option.some.inj hrun
              exact ⟨tv, sv, rfl, rfl, rfl⟩
    · rw [if_neg h2] at hrun
      by_cases h3 : truthy d.sourceVolume ∧ truthy d.targetConcentration
      · rw [if_pos h3] at hrun
        dsimp only [Option.bind_eq_bind] at hrun
        rcases hdf : fieldDiv d.estimatedConcentration d.targetConcentration with _ | df <;>
          rw [hdf] at hrun
        · exact absurd hrun (by simp)
        · simp only [Option.some_bind] at hrun
          rcases hsv : d.sourceVolume with _ | sv <;> rw [hsv] at hrun
          · exact absurd hrun (by simp [fieldMul])
          · simp only [fieldMul, fieldSub, Option.some_bind] at hrun
            obtain rfl : _ = d2 := Option.some.inj hrun
            exact ⟨sv * df, sv, rfl, rfl, rfl⟩
      · rw [if_neg h3] at hrun
        by_cases h4 : truthy d.dilutionFactor ∧ truthy d.totalVolume
        · rw [if_pos h4] at hrun
          dsimp only [Option.bind_eq_bind] at hrun
          rcases htc : fieldDiv d.estimatedConcentration d.dilutionFactor with _ | tc <;>
            rw [htc] at hrun
          · exact absurd hrun (by simp)
          · simp only [Option.some_bind] at hrun
            rcases hsv : fieldDiv d.totalVolume d.dilutionFactor with _ | sv <;>
              rw [hsv] at hrun
            · exact absurd hrun (by simp)
            · simp only [Option.some_bind] at hrun
              rcases htv : d.totalVolume with _ | tv
              · rw [htv] at hsv
                exact absurd hsv (by simp [fieldDiv])
              · rw [htv] at hrun
                simp only [fieldSub, Option.some_bind] at hrun
                obtain rfl : _ = d2 := Option.some.inj hrun
                exact ⟨tv, sv, rfl, rfl, rfl⟩
        · rw [if_neg h4] at hrun
          by_cases h5 : truthy d.dilutionFactor ∧ truthy d.sourceVolume
          · rw [if_pos h5] at hrun
            dsimp only [Option.bind_eq_bind] at hrun
            rcases hsv : d.sourceVolume with _ | sv <;> rw [hsv] at hrun
            · exact absurd hrun (by simp [fieldMul])
            · rcases hdf : d.dilutionFactor with _ | df <;> rw [hdf] at hrun
              · exact absurd hrun (by simp [fieldMul])
              · simp only [fieldMul, fieldSub, Option.some_bind] at hrun
                rcases htc : fieldDiv d.estimatedConcentration (some df) with _ | tc <;>
                  rw [htc] at hrun
                · exact absurd hrun (by simp)
                · simp only [Option.some_bind] at hrun
                  obtain rfl : _ = d2 := Option.some.inj hrun
                  exact ⟨sv * df, sv, rfl, rfl, rfl⟩
          · rw [if_neg h5] at hrun
            unfold entersDilutionBranch at henter
            rw [Bool.or_eq_true, Bool.or_eq_true, Bool.or_eq_true, Bool.or_eq_true] at henter
            simp only [Bool.and_eq_true] at henter
            rcases henter with (((ha | hb) | hc) | hd) | he
            · exact absurd ⟨ha.1, ha.2⟩ h1
            · exact absurd ⟨hb.1, hb.2⟩ h2
            · exact absurd ⟨hc.1, hc.2⟩ h3
            · exact absurd ⟨hd.1, hd.2⟩ h4
            · exact absurd ⟨he.1, he.2⟩ h5

theorem dilution_mpa_invariant_witness :
    sampleDilutionStep
      { estimatedConcentration := some 8, targetConcentration := some 2,
        totalVolume := some 100 }
      = some { estimatedConcentration := some 8, targetConcentration := some 2,
               totalVolume := some 100, sourceVolume := some 25,
               dilutionFactor := some 4, volumeOfMPA := some 75 } ∧
    ∃ tv sv,
      ({ estimatedConcentration := some 8, targetConcentration := some 2,
         totalVolume := some 100, sourceVolume := some 25,
         dilutionFactor := some 4, volumeOfMPA := some 75 }
          : DilutionDetail).totalVolume = some tv ∧
      ({ estimatedConcentration := some 8, targetConcentration := some 2,
         totalVolume := some 100, sourceVolume := some 25,
         dilutionFactor := some 4, volumeOfMPA := some 75 }
          : DilutionDetail).sourceVolume = some sv ∧
      ({ estimatedConcentration := some 8, targetConcentration := some 2,
         totalVolume := some 100, sourceVolume := some 25,
         dilutionFactor := some 4, volumeOfMPA := some 75 }
          : DilutionDetail).volumeOfMPA = some (tv - sv) := by
  have hrun : sampleDilutionStep
      { estimatedConcentration := some 8, targetConcentration := some 2,
        totalVolume := some 100 }
      = some { estimatedConcentration := some 8, targetConcentration := some 2,
               totalVolume := some 100, sourceVolume := some 25,
               dilutionFactor := some 4, volumeOfMPA := some 75 } := by
    unfold sampleDilutionStep
    rw [if_pos (by norm_num [truthy])]
    norm_num [fieldDiv, fieldSub]
  refine ⟨hrun, ?_⟩
  exact dilution_mpa_invariant _ _ (by norm_num [entersDilutionBranch, truthy]) hrun

/-! ## `ProtocolGrabber.update_entry` (C2)

From `sapio/webhook/grabber/grabber.py`, lines 380–418, with the tag constants
of `sapio/enum/tags.py`.  `ExperimentHandler.update_step` is the vendor call
that applies the keyword arguments to the entry; arguments left at `None` do
not modify the entry, which is the SDK contract `update_entry` relies on when
it leaves `updated_dependency_set = None`. -/

/-- The vendor `ExperimentEntryStatus` values used by the grabber. -/
inductive ExperimentEntryStatus where
  | Enabled
  | Disabled
  | Completed
deriving DecidableEq, Repr

/-- The per-entry state that `update_entry` can touch. -/
structure ExperimentEntry where
  entryId : Int
  entryName : String
  dataTypeName : String
  dependencySet : Option (List Int)
  relatedEntrySet : Option (List Int)
  entryStatus : ExperimentEntryStatus
  entryOptions : List (String × String)
deriving DecidableEq, Repr

/-- Constant `ExperimentEntryTags.PHASE_STEP` (tags.py). -/
def PHASE_STEP : String := "TAKEDA PHASE / STEP"

/-- Constant `ExperimentEntryTags.SOURCE_BUILDING_BLOCK` (tags.py). -/
def SOURCE_BUILDING_BLOCK : String := "TAKEDA SOURCE BUILDING BLOCK"

/-- Constant `ExperimentEntryTags.TEST_ALIQUOTS` (tags.py). -/
def TEST_ALIQUOTS : String := "TAKEDA TEST ALIQUOTS"

/-- Constant `ExperimentEntryTags.CREATE_SAMPLE_ALIQUOT_ENTRY` (tags.py). -/
def CREATE_SAMPLE_ALIQUOT_ENTRY : String := "SET UP ALIQUOTS"

/-- Constant `ExperimentEntryTags.OUTPUT_SAMPLE_TYPE_FOR_ALIQUOT` (tags.py). -/
def OUTPUT_SAMPLE_TYPE_FOR_ALIQUOT : String := "SET OUTPUT SAMPLE TYPE"

/-- Embeds `ProtocolGrabber.add_output_sample_type` (grabber.py 550–562): set the
output sample type tag to the title unless it is already present. -/
def add_output_sample_type (opts : List (String × String)) (title : String) :
    List (String × String) :=
  if dictHasKey opts OUTPUT_SAMPLE_TYPE_FOR_ALIQUOT then opts
  else dictSet opts OUTPUT_SAMPLE_TYPE_FOR_ALIQUOT title

/-- The vendor `ExperimentHandler.update_step` call: each keyword argument
left at `None` leaves the corresponding entry attribute unchanged. -/
def update_step (entry : ExperimentEntry) (entry_name : Option String)
    (dependency_set related_entry_set : Option (List Int))
    (entry_status : Option ExperimentEntryStatus)
    (entry_options_map : Option (List (String × String))) : ExperimentEntry :=
  { entry with
    entryName := entry_name.getD entry.entryName
    dependencySet := match dependency_set with
      | some l => some l
      | none => entry.dependencySet
    relatedEntrySet := match related_entry_set with
      | some l => some l
      | none => entry.relatedEntrySet
    entryStatus := entry_status.getD entry.entryStatus
    entryOptions := entry_options_map.getD entry.entryOptions }

/-- Embeds `ProtocolGrabber.update_entry` (grabber.py 380–418).  The options map is
updated first (phase/step tag, optional source building block, test aliquots,
aliquot output sample type); then an `ELNSampleDetail` entry with a samples
entry present gets its dependency and related entry sets pointed at the
samples entry when its dependency set is `None` or empty, and is disabled. -/
def update_entry (entry : ExperimentEntry) (sample_entry : Option ExperimentEntry)
    (updated_entry_name : String) (title : String)
    (protocol_template : Option String) : ExperimentEntry :=
  let opts0 := dictSet entry.entryOptions PHASE_STEP title
  let opts1 := match protocol_template with
    | some p => if p ≠ "" then dictSet opts0 SOURCE_BUILDING_BLOCK p else opts0
    | none => opts0
  let opts2 := if dictHasKey opts1 TEST_ALIQUOTS then dictSet opts1 TEST_ALIQUOTS title
    else opts1
  let opts3 := if dictHasKey opts2 CREATE_SAMPLE_ALIQUOT_ENTRY then
      add_output_sample_type opts2 title
    else opts2
  match sample_entry with
  | some se =>
    if strContains entry.dataTypeName "ELNSampleDetail" then
      let updated_dependency_set : Option (List Int) :=
        if entry.dependencySet = none ∨ entry.dependencySet = some [] then
          some [se.entryId]
        else none
      let updated_related_entry_set : Option (List Int) :=
        if entry.dependencySet = none ∨ entry.dependencySet = some [] then
          some [se.entryId]
        else none
      update_step entry (some updated_entry_name) updated_dependency_set
        updated_related_entry_set (some .Disabled) (some opts3)
    else
      update_step entry (some updated_entry_name) none none none (some opts3)
  | none =>
    update_step entry (some updated_entry_name) none none none (some opts3)

/-- C2.  For a created `ELNSampleDetail` entry with a samples entry present:
when its dependency set is `None` or empty, `update_entry` sets the dependency
set and the related entry set to exactly `[samples entry id]` and disables the
entry; when it already has a nonempty dependency set, that set is kept
unchanged. -/
theorem grabber_entry_relink (entry se : ExperimentEntry)
    (nm title : String) (pt : Option String)
    (hdt : strContains entry.dataTypeName "ELNSampleDetail" = true) :
    ((entry.dependencySet = none ∨ entry.dependencySet = some []) →
      (update_entry entry (some se) nm title pt).dependencySet = some [se.entryId] ∧
      (update_entry entry (some se) nm title pt).relatedEntrySet = some [se.entryId] ∧
      (update_entry entry (some se) nm title pt).entryStatus = .Disabled) ∧
    (∀ l : List Int, l ≠ [] → entry.dependencySet = some l →
      (update_entry entry (some se) nm title pt).dependencySet = some l) := by
  constructor
  · intro hdep
    unfold update_entry
    dsimp only
    rw [if_pos hdt, if_pos hdep]
    exact ⟨rfl, rfl, rfl⟩
  · intro l hl hdep
    have hcond : ¬ (entry.dependencySet = none ∨ entry.dependencySet = some []) := by
      rw [hdep]
      simp [hl]
    unfold update_entry
    dsimp only
    rw [if_pos hdt, if_neg hcond]
    exact hdep

theorem grabber_entry_relink_witness :
    (update_entry
      { entryId := 10, entryName := "Dilution Details", dataTypeName := "ELNSampleDetail104",
        dependencySet := none, relatedEntrySet := none,
        entryStatus := .Enabled, entryOptions := [] }
      (some { entryId := 7, entryName := "Samples", dataTypeName := "Sample",
              dependencySet := none, relatedEntrySet := none,
              entryStatus := .Enabled, entryOptions := [] })
      "Dilution Details" "Phase 1" none).dependencySet = some [7] ∧
    (update_entry
      { entryId := 10, entryName := "Dilution Details", dataTypeName := "ELNSampleDetail104",
        dependencySet := none, relatedEntrySet := none,
        entryStatus := .Enabled, entryOptions := [] }
      (some { entryId := 7, entryName := "Samples", dataTypeName := "Sample",
              dependencySet := none, relatedEntrySet := none,
              entryStatus := .Enabled, entryOptions := [] })
      "Dilution Details" "Phase 1" none).relatedEntrySet = some [7] ∧
    (update_entry
      { entryId := 10, entryName := "Dilution Details", dataTypeName := "ELNSampleDetail104",
        dependencySet := none, relatedEntrySet := none,
        entryStatus := .Enabled, entryOptions := [] }
      (some { entryId := 7, entryName := "Samples", dataTypeName := "Sample",
              dependencySet := none, relatedEntrySet := none,
              entryStatus := .Enabled, entryOptions := [] })
      "Dilution Details" "Phase 1" none).entryStatus = .Disabled := by
  exact grabber_entry_relink
    { entryId := 10, entryName := "Dilution Details", dataTypeName := "ELNSampleDetail104",
      dependencySet := none, relatedEntrySet := none,
      entryStatus := .Enabled, entryOptions := [] }
    { entryId := 7, entryName := "Samples", dataTypeName := "Sample",
      dependencySet := none, relatedEntrySet := none,
      entryStatus := .Enabled, entryOptions := [] }
    "Dilution Details" "Phase 1" none (by decide) |>.1 (Or.inl rfl)

/-! ## `SoftmaxGenerator.generate_file` (C8)

From `sapio/webhook/elisa/softmax.py`, lines 42–110 (with the private helpers
`__map_well_elements`, `__create_control_row`, `__create_sample_row`,
`__create_diluted_control_row`).  The `FileWriter` accumulates one row dict
per `add_row_dict` call and writes a header line followed by the data rows. -/

def WELL_LOCATION : String := "Well Location"

def GROUP_NAME : String := "Group Name"

def GROUP_TYPE : String := "Group Type"

def SOFTMAX_SAMPLE_NAME : String := "Sample Name"

def DESCRIPTOR1_NAME : String := "Descriptor1 Name"

def DESCRIPTOR1_VALUE : String := "Descriptor1 Value"

def DESCRIPTOR1_UNITS : String := "Descriptor1 Units"

def DESCRIPTOR2_NAME : String := "Descriptor2 Name"

def DESCRIPTOR2_VALUE : String := "Descriptor2 Value"

def DESCRIPTOR2_UNITS : String := "Descriptor2 Units"

/-- Constant `SoftmaxGenerator.HEADERS` (softmax.py 24–35). -/
def SOFTMAX_HEADERS : List String :=
  [WELL_LOCATION, GROUP_NAME, GROUP_TYPE, SOFTMAX_SAMPLE_NAME,
   DESCRIPTOR1_NAME, DESCRIPTOR1_VALUE, DESCRIPTOR1_UNITS,
   DESCRIPTOR2_NAME, DESCRIPTOR2_VALUE, DESCRIPTOR2_UNITS]

/-- The plate fields `generate_file` reads (`PlateId`, `PlateRows`,
`PlateColumns`). -/
structure PlateModel where
  plateId : String
  plateRows : Nat
  plateColumns : Nat
deriving DecidableEq, Repr

/-- A plate designer well element, with the fields the generator reads. -/
structure PlateWellElement where
  rowPosition : String
  colPosition : String
  isControl : Bool
  controlType : String
  sourceDataTypeName : String
  sourceRecordId : Int
deriving DecidableEq, Repr

/-- A diluted sample source record (`C_DilutedSampleModel`). -/
structure DilutedSample where
  recordId : Int
  otherSampleId : String
  dilutionFactor : String
deriving DecidableEq, Repr

/-- A diluted control source record (`C_DilutedControlModel`). -/
structure DilutedControl where
  recordId : Int
  consumableClassification : String
  softmaxGroupType : String
  dilutedControlName : String
  concentration : String
  concentrationUnits : String
deriving DecidableEq, Repr

/-- Python `str.zfill(w)` on an unsigned string: left-pad with zeros up to
width `w` (the sign handling of `zfill` is irrelevant here, the inputs are
digit strings). -/
def zfill (w : Nat) (s : String) : String :=
  String.mk (List.replicate (w - s.toList.length) '0' ++ s.toList)

/-- Models `chr(65 + row_num)` (softmax.py 104). -/
def rowLetter (rowNum : Nat) : String :=
  String.mk [Char.ofNat (65 + rowNum)]

/-- Embeds `SoftmaxGenerator.__get_plate_well_positions` (softmax.py 93–110): for each
row, for each column, the row letter followed by the one-based column number
zero-filled to two digits. -/
def getPlateWellPositions (numRows numCols : Nat) : List String :=
  (List.range numRows).flatMap (fun rowNum =>
    (List.range numCols).map (fun colNum =>
      rowLetter rowNum ++ zfill 2 (Nat.repr (colNum + 1))))

/-- Embeds `SoftmaxGenerator.__map_well_elements` (softmax.py 112–123). -/
def mapWellElements (elems : List PlateWellElement) : List (String × PlateWellElement) :=
  elems.foldl (fun d e => dictSet d (e.rowPosition ++ zfill 2 e.colPosition) e) []

/-- Models `RecordHandler.map_by_id` for diluted samples. -/
def mapSamplesById (l : List DilutedSample) : List (Int × DilutedSample) :=
  l.foldl (fun d r => dictSet d r.recordId r) []

/-- Models `RecordHandler.map_by_id` for diluted controls. -/
def mapControlsById (l : List DilutedControl) : List (Int × DilutedControl) :=
  l.foldl (fun d r => dictSet d r.recordId r) []

/-- Embeds `SoftmaxGenerator.__create_control_row` (softmax.py 125–141). -/
def createControlRow (e : PlateWellElement) : List (String × String) :=
  let row := dictSet (dictSet ([] : List (String × String)) GROUP_NAME "UNDEFINED")
    GROUP_TYPE "Custom"
  if e.controlType = "Blank" then
    dictSet (dictSet row GROUP_NAME "PBlank") GROUP_TYPE ""
  else row

/-- Embeds `SoftmaxGenerator.__create_sample_row` (softmax.py 143–156). -/
def createSampleRow (diluted : Option DilutedSample) : List (String × String) :=
  let row := dictSet (dictSet (dictSet ([] : List (String × String)) GROUP_NAME "Sample")
    GROUP_TYPE "Custom") DESCRIPTOR1_NAME "Dilution Factor"
  match diluted with
  | some s => dictSet (dictSet row SOFTMAX_SAMPLE_NAME s.otherSampleId)
      DESCRIPTOR1_VALUE s.dilutionFactor
  | none => row

/-- Embeds `SoftmaxGenerator.__create_diluted_control_row` (softmax.py 158–176). -/
def createDilutedControlRow (diluted : Option DilutedControl) : List (String × String) :=
  let row := dictSet ([] : List (String × String)) DESCRIPTOR1_NAME "Concentration"
  match diluted with
  | some c =>
    dictSet (dictSet (dictSet (dictSet (dictSet row GROUP_NAME c.consumableClassification)
      GROUP_TYPE c.softmaxGroupType) SOFTMAX_SAMPLE_NAME c.dilutedControlName)
      DESCRIPTOR1_VALUE c.concentration) DESCRIPTOR1_UNITS c.concentrationUnits
  | none => row

/-- The row-dict sequence `SoftmaxGenerator.generate_file` (softmax.py 42–90)
feeds to the file writer: one dict per well position of the plate, built from
the well element assigned to the position (if any) and finished by
`file_row[WELL_LOCATION] = well_position`. -/
def generateFileRows (plate : PlateModel) (wellElements : List PlateWellElement)
    (dilutedSamples : Option (List DilutedSample))
    (dilutedControls : Option (List DilutedControl)) : List (List (String × String)) :=
  let dilutedSamplesList := dilutedSamples.getD []
  let dilutedControlsList := dilutedControls.getD []
  let elemsByPos := mapWellElements wellElements
  let samplesById := mapSamplesById dilutedSamplesList
  let controlsById := mapControlsById dilutedControlsList
  (getPlateWellPositions plate.plateRows plate.plateColumns).map (fun wellPosition =>
    let fileRow : List (String × String) :=
      match dictGet elemsByPos wellPosition with
      | some e =>
        if e.isControl then createControlRow e
        else if e.sourceDataTypeName = "C_DilutedSample" then
          createSampleRow (dictGet samplesById e.sourceRecordId)
        else if e.sourceDataTypeName = "C_DilutedControl" then
          createDilutedControlRow (dictGet controlsById e.sourceRecordId)
        else []
      | none => []
    dictSet fileRow WELL_LOCATION wellPosition)

/-- The table `FileWriter.build_file` emits for `generate_file`: the header
row, then one line per row dict with the cells in header order (missing keys
are written blank). -/
def generate_file (plate : PlateModel) (wellElements : List PlateWellElement)
    (dilutedSamples : Option (List DilutedSample))
    (dilutedControls : Option (List DilutedControl)) : List (List String) :=
  SOFTMAX_HEADERS ::
    (generateFileRows plate wellElements dilutedSamples dilutedControls).map
      (fun row => SOFTMAX_HEADERS.map (fun h => (dictGet row h).getD ""))

theorem getPlateWellPositions_index (R C : Nat) :
    getPlateWellPositions R C
      = (List.range (R * C)).map
          (fun i => rowLetter (i / C) ++ zfill 2 (Nat.repr (i % C + 1))) := by
  induction R with
  | zero => simp [getPlateWellPositions]
  | succ r ih =>
    by_cases hC : C = 0
    · subst hC
      simp [getPlateWellPositions]
    · have hCpos : 0 < C := Nat.pos_of_ne_zero hC
      unfold getPlateWellPositions at ih ⊢
      rw [List.range_succ, List.flatMap_append, ih]
      rw [Nat.succ_mul, List.range_add, List.map_append]
      congr 1
      · simp only [List.flatMap_cons, List.flatMap_nil, List.append_nil]
        rw [List.map_map]
        apply List.map_congr_left
        intro c hc
        have hclt : c < C := List.mem_range.mp hc
        have hdiv : (r * C + c) / C = r := by
          rw [Nat.add_comm, Nat.mul_comm, Nat.add_mul_div_left c r hCpos,
            Nat.div_eq_of_lt hclt]
          omega
        have hmod : (r * C + c) % C = c := by
          rw [Nat.add_comm, Nat.mul_comm, Nat.add_mul_mod_self_left,
            Nat.mod_eq_of_lt hclt]
        simp only [Function.comp]
        rw [hdiv, hmod]

/-- C8.  `generate_file` writes, after the header row, exactly
`plateRows * plateColumns` data rows, one per well in row-major order
(row index `i / C`, column index `i % C`), and the Well Location value of the
i-th data row is the character with code `65 + i / C` followed by the
one-based column number `i % C + 1` zero-padded to two digits — whether or not
a well element is assigned to the position. -/
theorem softmax_generate_file (plate : PlateModel)
    (wellElements : List PlateWellElement)
    (dilutedSamples : Option (List DilutedSample))
    (dilutedControls : Option (List DilutedControl))
    (hlo : 1 ≤ plate.plateRows) (hhi : plate.plateRows ≤ 26) :
    (generate_file plate wellElements dilutedSamples dilutedControls).length
      = 1 + plate.plateRows * plate.plateColumns ∧
    ∀ i, i < plate.plateRows * plate.plateColumns →
      ((generateFileRows plate wellElements dilutedSamples dilutedControls)[i]?).bind
          (fun row => dictGet row WELL_LOCATION)
        = some (String.mk [Char.ofNat (65 + i / plate.plateColumns)]
            ++ zfill 2 (Nat.repr (i % plate.plateColumns + 1))) := by
  constructor
  · unfold generate_file
    rw [List.length_cons, List.length_map]
    unfold generateFileRows
    rw [List.length_map, getPlateWellPositions_index, List.length_map, List.length_range]
    omega
  · intro i hi
    unfold generateFileRows
    rw [List.getElem?_map, getPlateWellPositions_index, List.getElem?_map,
      List.getElem?_range hi]
    simp only [Option.map_some', Option.some_bind, dictGet_dictSet, rowLetter]

theorem softmax_generate_file_witness :
    (generate_file { plateId := "PLT1", plateRows := 2, plateColumns := 3 } [] none none).length
      = 1 + 2 * 3 ∧
    ((generateFileRows { plateId := "PLT1", plateRows := 2, plateColumns := 3 }
        [] none none)[4]?).bind (fun row => dictGet row WELL_LOCATION)
      = some (String.mk [Char.ofNat (65 + 4 / 3)] ++ zfill 2 (Nat.repr (4 % 3 + 1))) := by
  have h := softmax_generate_file { plateId := "PLT1", plateRows := 2, plateColumns := 3 }
    [] none none (by decide) (by decide)
  exact ⟨h.1, h.2 4 (by decide)⟩

/-! ## `ElisaPlateBlock.__init__` and determinism (C10)

From `sapio/webhook/elisa/elisa_blocks.py`, lines 12–43.  Python `str.split`
with an explicit separator is embedded as `charsSplitOn`/`strSplitOn`; an
`IndexError` (fewer than two lines, or a row with more cells than column
numbers) or a failing `float` conversion aborts the constructor (`none`). -/

/-- Python `list.split` semantics on character lists for a nonempty separator:
scan left to right, break at each occurrence of the separator.  With an empty
separator the whole input is returned unsplit (the Python call would raise;
the separators used here are `"\r\n"` and `"\t"`). -/
def charsSplitOn (sep : List Char) : List Char → List (List Char)
  | [] => [[]]
  | c :: rest =>
    if sep.length = 0 then [c :: rest]
    else if charsStartWith sep (c :: rest) then
      [] :: charsSplitOn sep (List.drop sep.length (c :: rest))
    else
      match charsSplitOn sep rest with
      | [] => [c :: rest]
      | h :: t => (c :: h) :: t
termination_by cs => cs.length
decreasing_by
  · rename_i hsep _
    simp only [List.length_drop, List.length_cons]
    omega
  · simp only [List.length_cons]
    omega

/-- Python `s.split(sep)` for a nonempty separator string. -/
def strSplitOn (s sep : String) : List String :=
  (charsSplitOn sep.toList s.toList).map String.mk

/-- The inner loop of `ElisaPlateBlock.__init__` (elisa_blocks.py 34–43) over
the cells of one row line: look up `column_numbers[j]` (an out-of-range index
raises), skip empty column numbers, convert nonempty cell text with `float`
(raising on bad input), and store the value—`None` for a blank cell—under
row letter + column number. -/
def plateRowGo (colNums : List String) (letter : String) (rowData : List String)
    (cells : List String) (j : Nat) (d : List (String × Option ℚ)) :
    Option (List (String × Option ℚ)) :=
  match cells with
  | [] => some d
  | cell :: rest =>
    match colNums[j]? with
    | none => none
    | some colNum =>
      if rowData = [] ∨ colNum = "" then plateRowGo colNums letter rowData rest (j + 1) d
      else
        match (if cell ≠ "" then (pyFloat cell).map some else some (none : Option ℚ)) with
        | none => none
        | some v => plateRowGo colNums letter rowData rest (j + 1)
            (dictSet d (letter ++ colNum) v)

/-- The outer loop of `ElisaPlateBlock.__init__` (elisa_blocks.py 30–43) over
the row data lines, with the row letter `chr(65 + i)`. -/
def plateRowsGo (colNums : List String) (lines : List String) (i : Nat)
    (d : List (String × Option ℚ)) : Option (List (String × Option ℚ)) :=
  match lines with
  | [] => some d
  | line :: rest =>
    let letter := String.mk [Char.ofNat (65 + i)]
    let rowData := strSplitOn line "\t"
    match plateRowGo colNums letter rowData rowData 0 d with
    | none => none
    | some d2 => plateRowsGo colNums rest (i + 1) d2

/-- Embeds `ElisaPlateBlock.__init__` (elisa_blocks.py 12–43): split the block on
`"\r\n"`, ignore the plate line, read the column numbers from the second line
(an `IndexError` when it is missing), and fill `value_by_well_position` from
the remaining row lines. -/
def elisaPlateBlockInit (plateBlockStr : String) : Option (List (String × Option ℚ)) :=
  match strSplitOn plateBlockStr "\r\n" with
  | _ :: columnNumbersLine :: rest =>
    plateRowsGo (strSplitOn columnNumbersLine "\t") rest 0 []
  | _ => none

/-- C10.  The embedded transformation cores are pure functions of their
inputs: equal plate-block strings give equal `value_by_well_position` maps,
and plates with equal row and column counts give equal well-position lists. -/
theorem pure_transform_determinism (s1 s2 : String) (hs : s1 = s2)
    (p1 p2 : PlateModel) (hrows : p1.plateRows = p2.plateRows)
    (hcols : p1.plateColumns = p2.plateColumns) :
    elisaPlateBlockInit s1 = elisaPlateBlockInit s2 ∧
    getPlateWellPositions p1.plateRows p1.plateColumns
      = getPlateWellPositions p2.plateRows p2.plateColumns := by
  subst hs
  rw [hrows, hcols]
  exact ⟨rfl, rfl⟩

theorem pure_transform_determinism_witness :
    elisaPlateBlockInit "Plate: P1" = elisaPlateBlockInit "Plate: P1" ∧
    getPlateWellPositions 8 12 = getPlateWellPositions 8 12 := by
  have h := pure_transform_determinism "Plate: P1" "Plate: P1" rfl
    { plateId := "a", plateRows := 8, plateColumns := 12 }
    { plateId := "b", plateRows := 8, plateColumns := 12 } rfl rfl
  exact h

/-! ## `ProcessElisaFile.update_sample_data_averages` (C4)

From `sapio/webhook/elisa/elisa_data_parsing.py`, lines 163–213, for one
sample-id group.  The I2S and dilution factor values are rationals; the
sample standard deviation (`statistics.stdev`, divisor `n - 1`) introduces a
square root and therefore lives in `ℝ`. -/

/-- The fields of one Sample Data detail that the averages step reads. -/
structure SampleDataDetail where
  i2s : Option ℚ := none
  dilutionFactor : Option ℚ := none
deriving DecidableEq, Repr

/-- The adjusted-I2S list of one group (elisa_data_parsing.py 189–199): skip
details whose I2S or dilution factor is blank, otherwise take
I2S · dilution factor. -/
def adjustedI2SValues (details : List SampleDataDetail) : List ℚ :=
  details.filterMap (fun d =>
    match d.i2s with
    | none => none
    | some i =>
      match d.dilutionFactor with
      | none => none
      | some f => some (i * f))

/-- Models `sum(xs) / len(xs)`. -/
def listMean (xs : List ℚ) : ℚ := xs.sum / xs.length

/-- Models `statistics.stdev`: the square root of the sum of squared deviations from
the mean divided by `n - 1`. -/
noncomputable def sampleStdev (xs : List ℚ) : ℝ :=
  Real.sqrt (((xs.map (fun x => (x - listMean xs) ^ 2)).sum / ((xs.length : ℚ) - 1) : ℚ))

/-- The two fields the averages record receives; unset fields stay `None`. -/
structure AveragesRecord where
  avgI2S : Option ℚ := none
  interDilCV : Option ℝ := none

/-- The per-group body of `update_sample_data_averages`
(elisa_data_parsing.py 188–213): the average is set when the adjusted list is
nonempty; the standard deviation exists when the list has more than one
element; InterDil CV% is set when both exist and the average is nonzero. -/
noncomputable def updateSampleDataAveragesRecord (details : List SampleDataDetail) :
    AveragesRecord :=
  let vals := adjustedI2SValues details
  let average : Option ℚ := if vals.length ≠ 0 then some (listMean vals) else none
  let sd : Option ℝ := if 1 < vals.length then some (sampleStdev vals) else none
  { avgI2S := average
    interDilCV :=
      match sd, average with
      | some s, some a => if a ≠ 0 then some (100 * s / (a : ℝ)) else none
      | _, _ => none }

/-- C4.  The Average Adjusted I2S field is set iff some detail in the group
has both I2S and dilution factor present, and equals the mean of
I2S · dilution factor over exactly those details; InterDil CV% is set iff at
least two adjusted values exist and their mean is nonzero, and then equals
100 · sample standard deviation / mean. -/
theorem elisa_sample_data_averages (details : List SampleDataDetail) :
    ((updateSampleDataAveragesRecord details).avgI2S ≠ none ↔
      ∃ d ∈ details, d.i2s ≠ none ∧ d.dilutionFactor ≠ none) ∧
    (adjustedI2SValues details ≠ [] →
      (updateSampleDataAveragesRecord details).avgI2S
        = some (listMean (adjustedI2SValues details))) ∧
    ((updateSampleDataAveragesRecord details).interDilCV ≠ none ↔
      (2 ≤ (adjustedI2SValues details).length ∧
        listMean (adjustedI2SValues details) ≠ 0)) ∧
    (2 ≤ (adjustedI2SValues details).length →
      listMean (adjustedI2SValues details) ≠ 0 →
      (updateSampleDataAveragesRecord details).interDilCV
        = some (100 * sampleStdev (adjustedI2SValues details)
            / (listMean (adjustedI2SValues details) : ℝ))) := by
  refine ⟨?_, ?_, ?_, ?_⟩
  · unfold updateSampleDataAveragesRecord
    dsimp only
    constructor
    · intro hne
      have hvals : adjustedI2SValues details ≠ [] := by
        intro hnil
        rw [hnil] at hne
        simp at hne
      have := List.filterMap_eq_nil_iff.not.mp (by
        unfold adjustedI2SValues at hvals
        exact hvals)
      push_neg at this
      obtain ⟨d, hd, hf⟩ := this
      refine ⟨d, hd, ?_⟩
      rcases hi : d.i2s with _ | i
      · rw [hi] at hf
        simp at hf
      · rcases hdf : d.dilutionFactor with _ | f
        · rw [hi, hdf] at hf
          simp at hf
        · exact ⟨by simp [hi], by simp [hdf]⟩
    · rintro ⟨d, hd, hi, hdf⟩
      rcases hi2 : d.i2s with _ | i
      · exact absurd hi2 hi
      · rcases hdf2 : d.dilutionFactor with _ | f
        · exact absurd hdf2 hdf
        · have hmem : (i * f) ∈ adjustedI2SValues details := by
            unfold adjustedI2SValues
            exact List.mem_filterMap.mpr ⟨d, hd, by rw [hi2, hdf2]⟩
          have hvals : adjustedI2SValues details ≠ [] := by
            intro hnil
            rw [hnil] at hmem
            simp at hmem
          have hlen : (adjustedI2SValues details).length ≠ 0 := by
            simpa [List.length_eq_zero] using hvals
          rw [if_pos hlen]
          simp
  · intro hvals
    have hlen : (adjustedI2SValues details).length ≠ 0 := by
      simpa [List.length_eq_zero] using hvals
    unfold updateSampleDataAveragesRecord
    dsimp only
    rw [if_pos hlen]
  · unfold updateSampleDataAveragesRecord
    dsimp only
    by_cases h2 : 1 < (adjustedI2SValues details).length
    · rw [if_pos h2, if_pos (by omega)]
      dsimp only
      by_cases hmean : listMean (adjustedI2SValues details) ≠ 0
      · rw [if_pos hmean]
        simp only [ne_eq, reduceCtorEq, not_false_eq_true, true_iff]
        exact ⟨by omega, hmean⟩
      · rw [if_neg hmean]
        simp only [ne_eq, not_true_eq_false, false_iff, not_and]
        intro _
        simpa using hmean
    · rw [if_neg h2]
      constructor
      · intro hne
        rcases havg : (if (adjustedI2SValues details).length ≠ 0 then
            some (listMean (adjustedI2SValues details)) else none) with _ | a
        · rw [havg] at hne
          simp at hne
        · rw [havg] at hne
          simp at hne
      · rintro ⟨hlen2, _⟩
        omega
  · intro h2 hmean
    unfold updateSampleDataAveragesRecord
    dsimp only
    rw [if_pos (by omega : 1 < (adjustedI2SValues details).length),
      if_pos (by omega : (adjustedI2SValues details).length ≠ 0)]
    dsimp only
    rw [if_pos hmean]

theorem elisa_sample_data_averages_witness :
    (updateSampleDataAveragesRecord
      [{ i2s := some 1, dilutionFactor := some 1 },
       { i2s := some 2, dilutionFactor := some 1 },
       { i2s := some 3, dilutionFactor := some 1 }]).interDilCV
      = some (100 * sampleStdev (adjustedI2SValues
          [{ i2s := some 1, dilutionFactor := some 1 },
           { i2s := some 2, dilutionFactor := some 1 },
           { i2s := some 3, dilutionFactor := some 1 }])
        / (listMean (adjustedI2SValues
          [{ i2s := some 1, dilutionFactor := some 1 },
           { i2s := some 2, dilutionFactor := some 1 },
           { i2s := some 3, dilutionFactor := some 1 }]) : ℝ)) := by
  have hvals : adjustedI2SValues
      [{ i2s := some 1, dilutionFactor := some 1 },
       { i2s := some 2, dilutionFactor := some 1 },
       { i2s := some 3, dilutionFactor := some 1 }] = [1 * 1, 2 * 1, 3 * 1] := by
    rfl
  exact (elisa_sample_data_averages
    [{ i2s := some 1, dilutionFactor := some 1 },
     { i2s := some 2, dilutionFactor := some 1 },
     { i2s := some 3, dilutionFactor := some 1 }]).2.2.2
    (by rw [hvals]; norm_num)
    (by rw [hvals]; norm_num [listMean])

end Sapio
